import Mathlib

/-!
Shallow embedding of kkty/probabilistic-database.

Sources embedded:
  * query.py   — the query AST (Variable, Atom, Negation, Conjunction,
    Disjunction, ExistentialQuantifier, UniversalQuantifier).
  * store.py   — the probability store (add / get / values).
  * evaluate.py — the analysis predicates and the lifted evaluator.
  * util.py    — DisjointSet and powerset.

Modelling conventions:
  * Python floats are modelled as exact rationals (ℚ); every probability in
    the claims is exactly representable.
  * Python exceptions are modelled by `Except Err`: `Err.assertionError` for
    a failing `assert`, `Err.typeError` for a TypeError (e.g. `reduce` over
    an empty sequence, or calling a function with a missing argument),
    `Err.attributeError` for an AttributeError (reading an attribute an
    object does not have),
    `Err.evaluationError` for `EvaluationError('The query is intractable.')`
    raised at evaluate.py:233, and `Err.valueError` for the
    `ValueError('Arity does not match.')` raised at store.py:15.
  * query.py (lines 35-54) defines binary `Conjunction(left, right)` /
    `Disjunction(left, right)` nodes with `left`/`right` attributes and no
    `children` attribute, while evaluate.py reads `query.children` on every
    connective and builds `Conjunction([...])` / `Disjunction([...])` from
    lists — an interface mismatch: on the program as staged, every
    traversal of a conjunction or disjunction raises AttributeError.  Two
    models are therefore given.  `PyQuery` with the `py_*` functions
    embeds the program exactly as staged (every connective fails).  The
    n-ary `Query` embeds evaluate.py against the n-ary node interface its
    own code is written for (the binary `and(a, b)` as the children list
    `[a, b]`); theorems use it only where the two models agree (atoms,
    negation, chains of quantifiers) or where its strictly larger success
    set only strengthens the statement proved (the range invariant).
  * The parser (query.py:137-150) creates one `Variable` object per bound
    name and shares it across its occurrences, so inside a query the
    identity-based comparisons of Python coincide with comparison of the
    variable's name; the evaluator's AST therefore carries variable names.
    (The separate identity semantics of `Variable.__eq__` / `Atom.__eq__`
    themselves is modelled below by `PyVariable` / `PyAtom`.)
  * The recursive evaluator is given a fuel parameter (`Err.outOfFuel` when
    exhausted); all theorems quantify over or instantiate the fuel.
-/

/-- query.py: a term in an atom's tuple is either a `Variable` (identified
by its name, see above) or a ground constant (a Python `str`). -/
inductive Term where
  | var (name : String)
  | const (s : String)
deriving DecidableEq, Repr

/-- query.py lines 14-22: `Atom` holds a relation name and a tuple of terms. -/
structure Atom where
  relation : String
  tuple_ : List Term
deriving DecidableEq, Repr

/-- The `Query` union type with the n-ary connective children lists that
evaluate.py's code is written against (it reads `query.children` and
builds nodes from lists).  The binary classes query.py actually defines
are modelled separately by `PyQuery` below. -/
inductive Query where
  | atom (a : Atom)
  | negation (inner : Query)
  | conjunction (children : List Query)
  | disjunction (children : List Query)
  | existentialQuantifier (v : String) (inner : Query)
  | universalQuantifier (v : String) (inner : Query)
deriving Repr

/-- Error kinds of the embedding (see the module docstring). -/
inductive Err where
  | assertionError
  | typeError
  | attributeError
  | evaluationError
  | valueError
  | outOfFuel
deriving DecidableEq, Repr

instance : Inhabited Query := ⟨.conjunction []⟩

mutual
/-- Structural (value) equality of queries, used to model `p == m` in the
`cancel` step of evaluate.py (lines 198-210).  With the classes as written
in query.py, `==` on query nodes is reference equality and two freshly
constructed nodes never compare equal; structural equality agrees with that
behaviour in the cancellation step because there the compared nodes always
have children lists of different parity (see `cancel_once_powerset_none`). -/
def Query.beq : Query → Query → Bool
  | .atom a1, .atom a2 => a1 = a2
  | .negation q1, .negation q2 => Query.beq q1 q2
  | .conjunction l1, .conjunction l2 => Query.beqList l1 l2
  | .disjunction l1, .disjunction l2 => Query.beqList l1 l2
  | .existentialQuantifier v1 q1, .existentialQuantifier v2 q2 =>
    v1 = v2 && Query.beq q1 q2
  | .universalQuantifier v1 q1, .universalQuantifier v2 q2 =>
    v1 = v2 && Query.beq q1 q2
  | _, _ => false

/-- Structural equality of lists of queries. -/
def Query.beqList : List Query → List Query → Bool
  | [], [] => true
  | q1 :: r1, q2 :: r2 => Query.beq q1 q2 && Query.beqList r1 r2
  | _, _ => false
end

instance : BEq Query := ⟨Query.beq⟩

/-! ## The probability store (store.py) -/

/-- store.py lines 4-9: `Store` keeps a dict from `(relation, tuple)` keys
to probabilities and a dict from relation names to arities.  Python dicts
are modelled as association lists with unique keys. -/
structure Store where
  probabilities : List ((String × List String) × ℚ)
  arities : List (String × Nat)

/-- Dict assignment `d[k] = v`: overwrite in place when the key is present,
append otherwise. -/
def set_assoc (l : List ((String × List String) × ℚ)) (k : String × List String) (v : ℚ) :
    List ((String × List String) × ℚ) :=
  if l.any (fun kv => decide (kv.1 = k)) then
    l.map (fun kv => if kv.1 = k then (k, v) else kv)
  else l ++ [(k, v)]

/-- store.py lines 11-17: `add` records the arity on first sight of a
relation, raises `ValueError` when a later tuple's length contradicts it
(before any mutation), and otherwise stores the probability. -/
def Store.add (s : Store) (relation : String) (tuple_ : List String) (probability : ℚ) :
    Except Err Store :=
  match s.arities.lookup relation with
  | none =>
    .ok ⟨set_assoc s.probabilities (relation, tuple_) probability,
         s.arities ++ [(relation, tuple_.length)]⟩
  | some arity =>
    if arity ≠ tuple_.length then .error .valueError
    else .ok ⟨set_assoc s.probabilities (relation, tuple_) probability, s.arities⟩

/-- store.py lines 19-20: `get` returns the stored probability, or `0.0`
for a missing key. -/
def Store.get (s : Store) (relation : String) (tuple_ : List String) : ℚ :=
  match s.probabilities.find? (fun kv => decide (kv.1 = (relation, tuple_))) with
  | some kv => kv.2
  | none => 0

/-- store.py lines 22-33: `values` collects into a set every constant of
every stored tuple, optionally filtered by relation and by position.  The
Python set is modelled as a duplicate-free list in first-insertion order
(the iteration order of the set is never observable downstream: the only
consumer is the separator-variable branch of the evaluator, which fails
before using an element). -/
def Store.values (s : Store) (relation : Option String) (position : Option Nat) : List String :=
  s.probabilities.foldl (fun acc kv =>
    match relation with
    | some r => if kv.1.1 ≠ r then acc else
        kv.1.2.enum.foldl (fun acc2 p =>
          match position with
          | some pos => if p.1 ≠ pos then acc2 else
              (if p.2 ∈ acc2 then acc2 else acc2 ++ [p.2])
          | none => if p.2 ∈ acc2 then acc2 else acc2 ++ [p.2]) acc
    | none =>
        kv.1.2.enum.foldl (fun acc2 p =>
          match position with
          | some pos => if p.1 ≠ pos then acc2 else
              (if p.2 ∈ acc2 then acc2 else acc2 ++ [p.2])
          | none => if p.2 ∈ acc2 then acc2 else acc2 ++ [p.2]) acc) []

/-! ## Query analysis (evaluate.py lines 10-159) -/

mutual
/-- evaluate.py lines 10-17: `get_atoms` lists the atoms of a query.
`reduce(add, ...)` over the empty children list raises TypeError; any
other node kind (negation, quantifiers) hits `assert False`. -/
def get_atoms : Query → Except Err (List Atom)
  | .atom a => .ok [a]
  | .conjunction cs =>
    match get_atoms_list cs with
    | .error e => .error e
    | .ok [] => .error .typeError
    | .ok (l :: ls) => .ok (ls.foldl (· ++ ·) l)
  | .disjunction cs =>
    match get_atoms_list cs with
    | .error e => .error e
    | .ok [] => .error .typeError
    | .ok (l :: ls) => .ok (ls.foldl (· ++ ·) l)
  | _ => .error .assertionError

/-- Atom lists of the children, left to right, first error propagated. -/
def get_atoms_list : List Query → Except Err (List (List Atom))
  | [] => .ok []
  | q :: rest =>
    match get_atoms q with
    | .error e => .error e
    | .ok l =>
      match get_atoms_list rest with
      | .error e => .error e
      | .ok ls => .ok (l :: ls)
end

/-- evaluate.py lines 20-27: `get_variables` collects the variables of the
query's atoms into a set, modelled as a duplicate-free list in
first-occurrence order (only membership and emptiness are observable). -/
def get_variables (query : Query) : Except Err (List String) :=
  match get_atoms query with
  | .error e => .error e
  | .ok atoms =>
    .ok (atoms.foldl (fun acc a =>
      a.tuple_.foldl (fun acc2 t =>
        match t with
        | .var n => if n ∈ acc2 then acc2 else acc2 ++ [n]
        | .const _ => acc2) acc) [])

/-- evaluate.py lines 30-42: `find_occurrences` collects the
(relation, position) pairs at which the variable occurs, duplicates
removed. -/
def find_occurrences (query : Query) (variable_ : String) :
    Except Err (List (String × Nat)) :=
  match get_atoms query with
  | .error e => .error e
  | .ok atoms =>
    .ok (atoms.foldl (fun acc a =>
      a.tuple_.enum.foldl (fun acc2 p =>
        if p.2 = Term.var variable_ then
          (if (a.relation, p.1) ∈ acc2 then acc2 else acc2 ++ [(a.relation, p.1)])
        else acc2) acc) [])

/-- Loop body of `is_separator_variable` (evaluate.py lines 53-62): carries
the `relation_to_position` dict; returns False as soon as an atom does not
contain the variable exactly once or a relation maps it to two positions. -/
def sep_loop (variable_ : String) : List Atom → List (String × Nat) → Bool
  | [], _ => true
  | a :: rest, relation_to_position =>
    if a.tuple_.countP (fun t => decide (t = Term.var variable_)) ≠ 1 then false
    else
      match a.tuple_.findIdx? (fun t => decide (t = Term.var variable_)) with
      | none => false
      | some position =>
        match relation_to_position.lookup a.relation with
        | none => sep_loop variable_ rest (relation_to_position ++ [(a.relation, position)])
        | some p => if p ≠ position then false else sep_loop variable_ rest relation_to_position

/-- evaluate.py lines 45-62: `is_separator_variable` (errors propagate from
`get_atoms`). -/
def is_separator_variable (variable_ : String) (query : Query) : Except Err Bool :=
  match get_atoms query with
  | .error e => .error e
  | .ok atoms => .ok (sep_loop variable_ atoms [])

/-- evaluate.py lines 73-74: `replace_if_match` returns the constant when
the term is the variable being rewritten, the term itself otherwise (a
Python `str` item never compares equal to a `Variable`). -/
def replace_if_match (variable_ constant : String) : Term → Term
  | .var n => if n = variable_ then .const constant else .var n
  | .const s => .const s

mutual
/-- evaluate.py lines 65-82: `rewrite` replaces the variable by the ground
constant, rebuilding the query; node kinds outside
Atom/Conjunction/Disjunction/ExistentialQuantifier hit `assert False`. -/
def rewrite : Query → String → String → Except Err Query
  | .atom a, variable_, constant =>
    .ok (.atom ⟨a.relation, a.tuple_.map (replace_if_match variable_ constant)⟩)
  | .conjunction cs, variable_, constant =>
    match rewrite_list cs variable_ constant with
    | .error e => .error e
    | .ok cs' => .ok (.conjunction cs')
  | .disjunction cs, variable_, constant =>
    match rewrite_list cs variable_ constant with
    | .error e => .error e
    | .ok cs' => .ok (.disjunction cs')
  | .existentialQuantifier v inner, variable_, constant =>
    match rewrite inner variable_ constant with
    | .error e => .error e
    | .ok inner' => .ok (.existentialQuantifier v inner')
  | _, _, _ => .error .assertionError

/-- Children of a rewritten connective, left to right. -/
def rewrite_list : List Query → String → String → Except Err (List Query)
  | [], _, _ => .ok []
  | q :: rest, variable_, constant =>
    match rewrite q variable_ constant with
    | .error e => .error e
    | .ok q' =>
      match rewrite_list rest variable_ constant with
      | .error e => .error e
      | .ok rest' => .ok (q' :: rest')
end

mutual
/-- evaluate.py lines 85-96: `remove_quantifiers` drops existential
quantifier nodes; negation and universal quantification fall through to
`assert False`. -/
def remove_quantifiers : Query → Except Err Query
  | .atom a => .ok (.atom a)
  | .conjunction cs =>
    match remove_quantifiers_list cs with
    | .error e => .error e
    | .ok cs' => .ok (.conjunction cs')
  | .disjunction cs =>
    match remove_quantifiers_list cs with
    | .error e => .error e
    | .ok cs' => .ok (.disjunction cs')
  | .existentialQuantifier _ inner => remove_quantifiers inner
  | _ => .error .assertionError

/-- Children with quantifiers removed, left to right. -/
def remove_quantifiers_list : List Query → Except Err (List Query)
  | [] => .ok []
  | q :: rest =>
    match remove_quantifiers q with
    | .error e => .error e
    | .ok q' =>
      match remove_quantifiers_list rest with
      | .error e => .error e
      | .ok rest' => .ok (q' :: rest')
end

/-- evaluate.py lines 106-113: the per-child subquery lists fed into the
Cartesian product — a singleton for an atom child, the children for a
conjunction child, `assert False` otherwise. -/
def push_subqueries : List Query → Except Err (List (List Query))
  | [] => .ok []
  | .atom a :: rest =>
    match push_subqueries rest with
    | .error e => .error e
    | .ok ls => .ok ([Query.atom a] :: ls)
  | .conjunction cs :: rest =>
    match push_subqueries rest with
    | .error e => .error e
    | .ok ls => .ok (cs :: ls)
  | _ :: _ => .error .assertionError

/-- itertools.product over a list of lists, rightmost factor varying
fastest. -/
def cartesian : List (List Query) → List (List Query)
  | [] => [[]]
  | l :: ls => l.flatMap (fun x => (cartesian ls).map (fun r => x :: r))

/-- evaluate.py lines 99-117: `push_disjunction`, applied to the children
of a disjunction; returns the disjunction unchanged when the product is a
singleton, else the conjunction of the product's disjunctions. -/
def push_disjunction (children : List Query) : Except Err Query :=
  match push_subqueries children with
  | .error e => .error e
  | .ok subqueries =>
    let product_ := cartesian subqueries
    if product_.length = 1 then .ok (.disjunction children)
    else .ok (.conjunction (product_.map (fun l => .disjunction l)))

/-- evaluate.py lines 120-134: `is_unifiable` — same relation name and no
position (up to the shorter tuple, via `zip`) where two ground constants
disagree. -/
def is_unifiable (atom1 atom2 : Atom) : Bool :=
  if atom1.relation ≠ atom2.relation then false
  else (atom1.tuple_.zip atom2.tuple_).all (fun p =>
    match p with
    | (.const s1, .const s2) => s1 = s2
    | _ => true)

/-- evaluate.py lines 137-145: `is_independent` — no pair of atoms, one
from each query, unifies. -/
def is_independent (query1 query2 : Query) : Except Err Bool :=
  match get_atoms query1 with
  | .error e => .error e
  | .ok a1 =>
    match get_atoms query2 with
    | .error e => .error e
    | .ok a2 => .ok (a1.all (fun x => a2.all (fun y => !(is_unifiable x y))))

/-! ## DisjointSet (util.py lines 7-35) and decompose (evaluate.py 148-159)

util.py keys its parent dict by the query objects themselves; since the
evaluator passes the (pairwise distinct) child objects of a connective, we
key by the child's position in the list instead, which models Python's
identity-keyed dict exactly. -/

/-- util.py lines 11-14: `find_root` follows parent links; the recursion
depth is bounded by the number of elements, supplied here as fuel. -/
def find_root (parent : List Nat) : Nat → Nat → Nat
  | 0, i => i
  | f + 1, i =>
    let p := parent.getD i i
    if p = i then i else find_root parent f p

/-- util.py lines 16-22: `unite` links the root of `y` under the root of
`x` when they differ. -/
def unite (parent : List Nat) (x y : Nat) : List Nat :=
  let rx := find_root parent parent.length x
  let ry := find_root parent parent.length y
  if rx = ry then parent else parent.set ry rx

/-- Loop of evaluate.py lines 156-158 over `product(queries, queries)`:
unite the indices of every dependent pair (errors from `is_independent`
propagate). -/
def decompose_fold (queries : List Query) :
    List (Nat × Nat) → List Nat → Except Err (List Nat)
  | [], parent => .ok parent
  | (i, j) :: rest, parent =>
    match is_independent (queries.getD i default) (queries.getD j default) with
    | .error e => .error e
    | .ok b =>
      decompose_fold queries rest (if b then parent else unite parent i j)

/-- First-appearance deduplication, modelling iteration over the keys of
the `defaultdict` in util.py lines 29-35. -/
def dedup_first (l : List Nat) : List Nat :=
  l.foldl (fun acc x => if x ∈ acc then acc else acc ++ [x]) []

/-- evaluate.py lines 148-159 with util.py lines 29-35: `decompose` groups
the queries by the root of their index, groups ordered by first appearance
of the root, members in list order. -/
def decompose (queries : List Query) : Except Err (List (List Query)) :=
  let n := queries.length
  let pairs := (List.range n).flatMap (fun i => (List.range n).map (fun j => (i, j)))
  match decompose_fold queries pairs (List.range n) with
  | .error e => .error e
  | .ok parent =>
    let roots := (List.range n).map (fun i => find_root parent parent.length i)
    .ok ((dedup_first roots).map (fun r =>
      ((roots.zip queries).filter (fun p => decide (p.1 = r))).map (fun p => p.2)))

/-! ## The lifted evaluator (evaluate.py lines 162-241) -/

/-- util.py lines 38-49: `powerset` — subset `i` (for `i` in
`range(2 ** N)`) keeps the elements whose index bit is set in `i`. -/
def powerset (s : List Query) : List (List Query) :=
  (List.range (2 ^ s.length)).map (fun i =>
    (s.enum.filter (fun p => i.testBit p.1)).map (fun p => p.2))

/-- One pass of `cancel` (evaluate.py lines 198-210): find the first
element of `plus` that compares equal (`==`) to some element of `minus`
and remove one occurrence from each list. -/
def cancel_once : List Query → List Query → Option (List Query × List Query)
  | [], _ => none
  | p :: rest, minus =>
    if minus.any (fun m => p == m) then
      some (rest, minus.eraseP (fun m => p == m))
    else
      match cancel_once rest minus with
      | none => none
      | some pm => some (p :: pm.1, pm.2)

/-- The `while cancel(): pass` loop (evaluate.py lines 212-213); each
successful pass removes one element from `plus`, so `plus.length` bounds
the number of passes. -/
def cancel_fuel : Nat → List Query → List Query → List Query × List Query
  | 0, plus, minus => (plus, minus)
  | f + 1, plus, minus =>
    match cancel_once plus minus with
    | none => (plus, minus)
    | some pm => cancel_fuel f pm.1 pm.2

/-- Runs the cancellation loop to completion. -/
def cancel_loop (plus minus : List Query) : List Query × List Query :=
  cancel_fuel plus.length plus minus

/-- evaluate.py lines 185-186: wrap a decomposed group as a conjunction,
a singleton group bypassing the wrapper.  (`queries[0]` on an empty group
would raise; `decompose` only produces nonempty groups.) -/
def wrap_conjunction : List Query → Query
  | [q] => q
  | qs => .conjunction qs

/-- evaluate.py lines 220-221: the disjunction analogue of
`wrap_conjunction`. -/
def wrap_disjunction : List Query → Query
  | [q] => q
  | qs => .disjunction qs

/-- functools.reduce(mul, ·): TypeError on an empty sequence, else the
left fold of multiplication over the values. -/
def reduce_mul : List ℚ → Except Err ℚ
  | [] => .error .typeError
  | v :: vs => .ok (vs.foldl (· * ·) v)

/-- evaluate.py lines 172-175: the ground tuple of an atom; the `assert
isinstance(item, str)` fails on the first variable item. -/
def ground_tuple : List Term → Except Err (List String)
  | [] => .ok []
  | .const s :: rest =>
    match ground_tuple rest with
    | .error e => .error e
    | .ok t => .ok (s :: t)
  | .var _ :: _ => .error .assertionError

/-- evaluate.py lines 226-230: scan the variables for the first separator
variable (errors from `is_separator_variable` propagate).  The Python set
iteration order is unspecified; which separator is found is not observable
downstream (the branch fails the same way for every choice), only whether
one exists. -/
def find_separator : List String → Query → Except Err (Option String)
  | [], _ => .ok none
  | v :: rest, q =>
    match is_separator_variable v q with
    | .error e => .error e
    | .ok b => if b then .ok (some v) else find_separator rest q

mutual
/-- evaluate.py lines 166-241: `evaluate_query`.  The recursion is given a
fuel parameter; `Err.outOfFuel` signals exhaustion and is never produced
with enough fuel.  Branches, in source order:
  * remove all quantifiers (line 169);
  * ground-atom lookup, asserting groundness (lines 171-176);
  * `push_disjunction` on a disjunction (lines 178-179);
  * on a conjunction: multiply over the decomposition when it has more
    than one group (lines 181-187), otherwise inclusion-exclusion over the
    powerset of the children with the (never effective) cancellation step
    (lines 189-215);
  * on a disjunction: complement-product over the decomposition when it
    has more than one group (lines 217-222), otherwise search a separator
    variable (lines 224-233) and, when one exists, fail with TypeError:
    line 240 builds `partial(rewrite, (query, separator_variable))`, which
    calls `rewrite` with the pair as its first argument and `c` as its
    second, leaving `constant` unsupplied — every `rewrite_partial(c)` call
    raises TypeError, and with an empty domain `reduce` over the empty
    sequence raises TypeError as well (line 241). -/
def evaluate_query : Nat → Query → Store → Except Err ℚ
  | 0, _, _ => .error .outOfFuel
  | fuel + 1, query, store =>
    match remove_quantifiers query with
    | .error e => .error e
    | .ok q =>
      match q with
      | .atom a =>
        match ground_tuple a.tuple_ with
        | .error e => .error e
        | .ok t => .ok (store.get a.relation t)
      | _ =>
        match (match q with | .disjunction cs => push_disjunction cs | _ => .ok q) with
        | .error e => .error e
        | .ok q2 =>
          match q2 with
          | .conjunction cs =>
            match decompose cs with
            | .error e => .error e
            | .ok decomposed =>
              if decomposed.length > 1 then
                match evaluate_list fuel (decomposed.map wrap_conjunction) store with
                | .error e => .error e
                | .ok vals => reduce_mul vals
              else
                let plus := ((powerset cs).filter (fun l => ¬ l.length % 2 = 0)).map
                  Query.disjunction
                let minus := ((powerset cs).filter (fun l => l.length % 2 = 0)).map
                  Query.disjunction
                let pm := cancel_loop plus minus
                match evaluate_list fuel pm.1 store with
                | .error e => .error e
                | .ok pv =>
                  match evaluate_list fuel pm.2 store with
                  | .error e => .error e
                  | .ok mv => .ok (pv.sum - mv.sum)
          | .disjunction cs =>
            match decompose cs with
            | .error e => .error e
            | .ok decomposed =>
              if decomposed.length > 1 then
                match evaluate_list fuel (decomposed.map wrap_disjunction) store with
                | .error e => .error e
                | .ok vals =>
                  match reduce_mul (vals.map (fun v => 1 - v)) with
                  | .error e => .error e
                  | .ok p => .ok (1 - p)
              else
                match get_variables (.disjunction cs) with
                | .error e => .error e
                | .ok vs0 =>
                  match find_separator vs0 (.disjunction cs) with
                  | .error e => .error e
                  | .ok none => .error .evaluationError
                  | .ok (some v) =>
                    match find_occurrences (.disjunction cs) v with
                    | .error e => .error e
                    | .ok occurrences =>
                      let domain := occurrences.foldl (fun acc rp =>
                        (store.values (some rp.1) (some rp.2)).foldl
                          (fun acc2 value =>
                            if value ∈ acc2 then acc2 else acc2 ++ [value]) acc) []
                      if domain.isEmpty then .error .typeError else .error .typeError
          | _ => .error .assertionError
termination_by fuel _q _s => (fuel, 0)

/-- Left-to-right evaluation of a list of queries at the same fuel, first
error propagated (models Python's generator-fed `reduce`/`sum`). -/
def evaluate_list : Nat → List Query → Store → Except Err (List ℚ)
  | _, [], _ => .ok []
  | fuel, q :: rest, store =>
    match evaluate_query fuel q store with
    | .error e => .error e
    | .ok v =>
      match evaluate_list fuel rest store with
      | .error e => .error e
      | .ok vs => .ok (v :: vs)
termination_by fuel l _s => (fuel, l.length + 1)
end


/-! ## The program as staged: binary connective objects (query.py 35-54)

query.py defines `Conjunction(left, right)` and `Disjunction(left, right)`
as binary nodes with `left`/`right` attributes and no `children`
attribute, and these are exactly the classes evaluate.py imports (line 3).
Every path of evaluate.py that traverses a connective reads
`query.children` (lines 16, 77-79, 91-93, 107-111, 182, 192, 217), so on
the program as staged any conjunction or disjunction raises
AttributeError at the first such access.  `PyQuery` and the `py_*`
functions model that program exactly. -/

/-- The query objects the parser builds (query.py lines 4-80): the
connectives are binary, with no `children` attribute. -/
inductive PyQuery where
  | atom (a : Atom)
  | negation (inner : PyQuery)
  | conjunction (left right : PyQuery)
  | disjunction (left right : PyQuery)
  | existentialQuantifier (v : String) (inner : PyQuery)
  | universalQuantifier (v : String) (inner : PyQuery)
deriving DecidableEq, Repr

/-- evaluate.py lines 85-96 on the staged classes: the Atom case returns
the atom; the Conjunction and Disjunction cases evaluate
`query.children`, which the binary nodes do not have — AttributeError;
the ExistentialQuantifier case recurses into the inner query; anything
else falls through to `assert False`. -/
def py_remove_quantifiers : PyQuery → Except Err PyQuery
  | .atom a => .ok (.atom a)
  | .conjunction _ _ => .error .attributeError
  | .disjunction _ _ => .error .attributeError
  | .existentialQuantifier _ inner => py_remove_quantifiers inner
  | _ => .error .assertionError

/-- evaluate.py lines 65-82 on the staged classes: an atom is rebuilt
with the substitution applied to its tuple; the Conjunction and
Disjunction cases iterate `query.children` — AttributeError; the
ExistentialQuantifier case recurses; anything else falls through to
`assert False`. -/
def py_rewrite : PyQuery → String → String → Except Err PyQuery
  | .atom a, variable_, constant =>
    .ok (.atom ⟨a.relation, a.tuple_.map (replace_if_match variable_ constant)⟩)
  | .conjunction _ _, _, _ => .error .attributeError
  | .disjunction _ _, _, _ => .error .attributeError
  | .existentialQuantifier v inner, variable_, constant =>
    match py_rewrite inner variable_ constant with
    | .error e => .error e
    | .ok inner' => .ok (.existentialQuantifier v inner')
  | _, _, _ => .error .assertionError

/-- evaluate.py lines 166-241 on the staged classes.  After
`remove_quantifiers`, a surviving atom is looked up in the store (with
the groundness assertion of lines 172-175); every other branch of the
function begins by reading `query.children` (`push_disjunction` at line
179 via lines 106-113, `decompose` at lines 182 and 217), which the
binary nodes do not have — AttributeError.  (`py_remove_quantifiers`
already fails on every non-atom, so that arm is in fact unreachable.) -/
def py_evaluate_query : Nat → PyQuery → Store → Except Err ℚ
  | 0, _, _ => .error .outOfFuel
  | _ + 1, query, store =>
    match py_remove_quantifiers query with
    | .error e => .error e
    | .ok q =>
      match q with
      | .atom a =>
        match ground_tuple a.tuple_ with
        | .error e => .error e
        | .ok t => .ok (store.get a.relation t)
      | _ => .error .attributeError

/-! ## Python object semantics of Variable and Atom (query.py lines 4-22)

The classes `Variable` and `Atom` in query.py define only `__init__` and
`__str__`.  A Python class with no `__eq__` inherits `object.__eq__`,
which compares by identity, and `object.__hash__`, which derives from the
identity.  An object is modelled as its identity (an address) together
with its attributes; two separate constructor calls yield distinct
addresses. -/

/-- A `Variable` object: address plus the `name` attribute. -/
structure PyVariable where
  addr : Nat
  name : String
deriving DecidableEq, Repr

/-- Python `==` on `Variable` objects: identity comparison. -/
def pyVariableEq (v1 v2 : PyVariable) : Bool := v1.addr = v2.addr

/-- Python `hash` on `Variable` objects: derived from the identity. -/
def pyVariableHash (v : PyVariable) : Nat := v.addr

/-- An `Atom` object: address plus the `relation` and `tuple` attributes
(terms are `Variable` objects or strings). -/
structure PyAtom where
  addr : Nat
  relation : String
  tuple_ : List (PyVariable ⊕ String)
deriving DecidableEq, Repr

/-- Python `==` on `Atom` objects: identity comparison. -/
def pyAtomEq (a1 a2 : PyAtom) : Bool := a1.addr = a2.addr

/-- Python `hash` on `Atom` objects: derived from the identity. -/
def pyAtomHash (a : PyAtom) : Nat := a.addr

/-! ## Concrete stores of the specification's scenarios -/

/-- Store of scenario 1: `add("R", ("a",), 0.4)`. -/
def store_single : Store := ⟨[(("R", ["a"]), 2/5)], [("R", 1)]⟩

/-- Store of scenarios 2 and 3: `add("R", ("a",), 0.5); add("S", ("b",), 0.4)`. -/
def store_rs : Store := ⟨[(("R", ["a"]), 1/2), (("S", ["b"]), 2/5)], [("R", 1), ("S", 1)]⟩

/-- Store of scenario 4: three `R` facts with probability `0.5`. -/
def store_rrr : Store :=
  ⟨[(("R", ["a"]), 1/2), (("R", ["b"]), 1/2), (("R", ["c"]), 1/2)], [("R", 1)]⟩

/-- A store with nonempty entries for `R`, `S` and `T` (scenario 6). -/
def store_rst : Store :=
  ⟨[(("R", ["a"]), 1/2), (("S", ["a", "b"]), 1/2), (("T", ["b"]), 1/2)],
   [("R", 1), ("S", 2), ("T", 1)]⟩

/-- Store for the nested-disjunction counterexample: `R(a)=0.5`,
`S(b)=0.4`, `T(c)=0.5`. -/
def store_rst3 : Store :=
  ⟨[(("R", ["a"]), 1/2), (("S", ["b"]), 2/5), (("T", ["c"]), 1/2)],
   [("R", 1), ("S", 1), ("T", 1)]⟩

/-! ## Structural lemmas -/

/-- Induction principle for `Query` handling the nested children lists via
membership. -/
theorem query_ind {motive : Query → Prop}
    (hatom : ∀ a, motive (.atom a))
    (hneg : ∀ q, motive q → motive (.negation q))
    (hconj : ∀ cs, (∀ q ∈ cs, motive q) → motive (.conjunction cs))
    (hdisj : ∀ cs, (∀ q ∈ cs, motive q) → motive (.disjunction cs))
    (hex : ∀ v q, motive q → motive (.existentialQuantifier v q))
    (huniv : ∀ v q, motive q → motive (.universalQuantifier v q)) :
    ∀ q, motive q := by
  have H : ∀ n q, sizeOf q ≤ n → motive q := by
    intro n
    induction n with
    | zero =>
      intro q hq
      exfalso
      cases q <;> simp_all
    | succ n ih =>
      intro q hq
      match q with
      | .atom a => exact hatom a
      | .negation inner =>
        refine hneg _ (ih inner ?_)
        simp at hq; omega
      | .conjunction cs =>
        refine hconj _ (fun q hqm => ih q ?_)
        have := List.sizeOf_lt_of_mem hqm
        simp at hq; omega
      | .disjunction cs =>
        refine hdisj _ (fun q hqm => ih q ?_)
        have := List.sizeOf_lt_of_mem hqm
        simp at hq; omega
      | .existentialQuantifier v inner =>
        refine hex _ _ (ih inner ?_)
        simp at hq; omega
      | .universalQuantifier v inner =>
        refine huniv _ _ (ih inner ?_)
        simp at hq; omega
  exact fun q => H (sizeOf q) q le_rfl

/-- A query whose `get_atoms` succeeds contains no quantifier and no
negation, so `remove_quantifiers` returns it unchanged (list version
below). -/
theorem remove_quantifiers_list_of_atoms (cs : List Query)
    (h : ∀ q ∈ cs, ∀ l, get_atoms q = .ok l → remove_quantifiers q = .ok q)
    (ls : List (List Atom)) (hls : get_atoms_list cs = .ok ls) :
    remove_quantifiers_list cs = .ok cs := by
  induction cs generalizing ls with
  | nil => simp [remove_quantifiers_list]
  | cons q rest ih =>
    rw [get_atoms_list] at hls
    cases hq : get_atoms q with
    | error e => rw [hq] at hls; cases hls
    | ok l =>
      rw [hq] at hls
      cases hrest : get_atoms_list rest with
      | error e => rw [hrest] at hls; cases hls
      | ok ls' =>
        rw [remove_quantifiers_list, h q (by simp) l hq,
          ih (fun q hqm => h q (by simp [hqm])) ls' hrest]

/-- A query whose `get_atoms` succeeds is left unchanged by
`remove_quantifiers`. -/
theorem remove_quantifiers_of_atoms :
    ∀ q, ∀ l, get_atoms q = .ok l → remove_quantifiers q = .ok q := by
  intro q
  induction q using query_ind with
  | hatom a => intro l _; rw [remove_quantifiers]
  | hneg q ih => intro l hl; simp [get_atoms] at hl
  | hconj cs ih =>
    intro l hl
    rw [get_atoms] at hl
    cases hls : get_atoms_list cs with
    | error e => rw [hls] at hl; cases hl
    | ok ls =>
      rw [remove_quantifiers, remove_quantifiers_list_of_atoms cs ih ls hls]
  | hdisj cs ih =>
    intro l hl
    rw [get_atoms] at hl
    cases hls : get_atoms_list cs with
    | error e => rw [hls] at hl; cases hl
    | ok ls =>
      rw [remove_quantifiers, remove_quantifiers_list_of_atoms cs ih ls hls]
  | hex v q ih => intro l hl; simp [get_atoms] at hl
  | huniv v q ih => intro l hl; simp [get_atoms] at hl

/-- `is_unifiable` is symmetric (the zipped positions swap pairwise). -/
theorem is_unifiable_symm (atom1 atom2 : Atom) :
    is_unifiable atom1 atom2 = is_unifiable atom2 atom1 := by
  rcases atom1 with ⟨r1, t1⟩
  rcases atom2 with ⟨r2, t2⟩
  rw [is_unifiable, is_unifiable]
  simp only
  by_cases hr : r1 = r2
  · subst hr
    simp only [ne_eq, not_true_eq_false, if_false, ite_false]
    have : ∀ (t1 t2 : List Term),
        ((t1.zip t2).all (fun p =>
          match p with
          | (.const s1, .const s2) => s1 = s2
          | _ => true)) =
        ((t2.zip t1).all (fun p =>
          match p with
          | (.const s1, .const s2) => s1 = s2
          | _ => true)) := by
      intro t1
      induction t1 with
      | nil => intro t2; cases t2 <;> simp
      | cons x r ih =>
        intro t2
        cases t2 with
        | nil => simp
        | cons y r2 =>
          simp only [List.zip_cons_cons, List.all_cons, ih r2]
          congr 1
          cases x <;> cases y <;> simp [eq_comm]
    simp [this]
  · have hr' : ¬ r2 = r1 := fun h => hr h.symm
    simp [hr, hr']

/-- `is_independent` is symmetric, both in succeeding and in its value. -/
theorem is_independent_symm (query1 query2 : Query) (b : Bool)
    (h : is_independent query1 query2 = .ok b) :
    is_independent query2 query1 = .ok b := by
  rw [is_independent] at h
  rw [is_independent]
  cases h1 : get_atoms query1 with
  | error e => simp [h1] at h
  | ok a1 =>
    cases h2 : get_atoms query2 with
    | error e => simp [h1, h2] at h
    | ok a2 =>
      rw [h1, h2] at h
      simp only [Except.ok.injEq] at h ⊢
      subst h
      rw [Bool.eq_iff_iff]
      simp only [List.all_eq_true, Bool.not_eq_true']
      constructor
      · intro hh x hx y hy
        rw [is_unifiable_symm]
        exact hh y hy x hx
      · intro hh x hx y hy
        rw [is_unifiable_symm]
        exact hh y hy x hx

/-- `is_independent query query` succeeds whenever `get_atoms query`
does. -/
theorem is_independent_self (query : Query) (l : List Atom)
    (h : get_atoms query = .ok l) :
    is_independent query query
      = .ok (l.all (fun x => l.all (fun y => !(is_unifiable x y)))) := by
  rw [is_independent, h]

/-- `decompose` on a two-element list of mutually independent queries
(whose self-tests succeed) yields the two singleton groups. -/
theorem decompose_two (q1 q2 : Query) (b1 b2 : Bool)
    (h11 : is_independent q1 q1 = .ok b1)
    (h22 : is_independent q2 q2 = .ok b2)
    (h12 : is_independent q1 q2 = .ok true)
    (h21 : is_independent q2 q1 = .ok true) :
    decompose [q1, q2] = .ok [[q1], [q2]] := by
  cases b1 <;> cases b2 <;>
    simp [decompose, decompose_fold, h11, h22, h12, h21, unite, find_root, dedup_first,
      List.range_succ]

/-- Every value produced by `evaluate_list` comes from `evaluate_query` on
a member of the list. -/
theorem evaluate_list_mem (fuel : Nat) (s : Store) :
    ∀ (l : List Query) (vs : List ℚ), evaluate_list fuel l s = .ok vs →
      ∀ v ∈ vs, ∃ q ∈ l, evaluate_query fuel q s = .ok v := by
  intro l
  induction l with
  | nil =>
    intro vs h v hv
    rw [evaluate_list] at h
    injection h with hh
    subst hh
    cases hv
  | cons q rest ih =>
    intro vs h v hv
    rw [evaluate_list] at h
    cases h1 : evaluate_query fuel q s with
    | error e => rw [h1] at h; cases h
    | ok w =>
      rw [h1] at h
      cases h2 : evaluate_list fuel rest s with
      | error e => rw [h2] at h; cases h
      | ok ws =>
        rw [h2] at h
        injection h with hh
        subst hh
        rcases List.mem_cons.mp hv with rfl | hv
        · exact ⟨q, by simp, h1⟩
        · rcases ih ws h2 v hv with ⟨q', hq', hval⟩
          exact ⟨q', by simp [hq'], hval⟩

/-- `evaluate_list` on a list whose head fails cannot succeed. -/
theorem evaluate_list_head_error (fuel : Nat) (s : Store) (q : Query)
    (rest : List Query) (e : Err) (h : evaluate_query fuel q s = .error e) :
    evaluate_list fuel (q :: rest) s = .error e := by
  rw [evaluate_list, h]

/-- The evaluator never succeeds on an empty disjunction: with the (empty)
decomposition trivial, `get_variables` reaches `reduce` over the empty
atom-list map and raises TypeError (evaluate.py lines 16, 224). -/
theorem evaluate_disjunction_nil (fuel : Nat) (s : Store) :
    ∀ p, evaluate_query fuel (.disjunction []) s ≠ .ok p := by
  intro p
  cases fuel with
  | zero => simp [evaluate_query]
  | succ n =>
    simp [evaluate_query, remove_quantifiers, remove_quantifiers_list,
      push_disjunction, push_subqueries, cartesian, decompose, decompose_fold,
      dedup_first, get_variables, get_atoms, get_atoms_list]

/-- Structurally equal query lists have equal lengths. -/
theorem beqList_length : ∀ (l1 l2 : List Query),
    Query.beqList l1 l2 = true → l1.length = l2.length := by
  intro l1
  induction l1 with
  | nil => intro l2 h; cases l2 with
    | nil => rfl
    | cons x r => simp [Query.beqList] at h
  | cons x r ih =>
    intro l2 h
    cases l2 with
    | nil => simp [Query.beqList] at h
    | cons y r2 =>
      rw [Query.beqList, Bool.and_eq_true] at h
      simp [ih r2 h.2]

/-- When no element of `plus` compares `==`-equal to an element of
`minus`, one pass of the cancellation scan finds nothing. -/
theorem cancel_once_none : ∀ (plus minus : List Query),
    (∀ p ∈ plus, ∀ m ∈ minus, (p == m) = false) →
    cancel_once plus minus = none := by
  intro plus
  induction plus with
  | nil => intro minus h; rw [cancel_once]
  | cons p rest ih =>
    intro minus h
    rw [cancel_once]
    have hany : minus.any (fun m => p == m) = false := by
      rw [List.any_eq_false]
      intro m hm
      simp [h p (by simp) m hm]
    rw [hany]
    simp only [Bool.false_eq_true, if_false, ite_false]
    rw [ih minus (fun p' hp' => h p' (by simp [hp']))]

/-- The cancellation loop is the identity when one pass finds nothing. -/
theorem cancel_loop_id (plus minus : List Query)
    (h : cancel_once plus minus = none) :
    cancel_loop plus minus = (plus, minus) := by
  rw [cancel_loop]
  cases hf : plus.length with
  | zero => rw [cancel_fuel]
  | succ f => rw [cancel_fuel, h]

/-- The first subset `powerset` produces is the empty one (index `0` has
no bits set). -/
theorem powerset_head (cs : List Query) : ∃ t, powerset cs = [] :: t := by
  rw [powerset]
  obtain ⟨m, hm⟩ : ∃ m, 2 ^ cs.length = m + 1 :=
    ⟨2 ^ cs.length - 1, (Nat.succ_pred_eq_of_pos (Nat.two_pow_pos cs.length)).symm⟩
  rw [hm, List.range_succ_eq_map, List.map_cons]
  have h0 : (cs.enum.filter (fun p => Nat.testBit 0 p.1)) = [] := by
    rw [List.filter_eq_nil_iff]
    intro a _
    simp [Nat.zero_testBit]
  rw [h0, List.map_nil]
  exact ⟨_, rfl⟩

/-- The even-sized half of the powerset, as built by the
inclusion-exclusion step, starts with the empty disjunction. -/
theorem minus_head (cs : List Query) :
    ∃ t, ((powerset cs).filter (fun l => l.length % 2 = 0)).map Query.disjunction
      = Query.disjunction [] :: t := by
  obtain ⟨t, ht⟩ := powerset_head cs
  rw [ht]
  rw [List.filter_cons_of_pos (by simp)]
  exact ⟨_, rfl⟩

/-- In the inclusion-exclusion step the cancellation loop removes
nothing: an odd-sized and an even-sized subset are never structurally
equal. -/
theorem cancel_loop_powerset (cs : List Query) :
    cancel_loop
      (((powerset cs).filter (fun l => ¬ l.length % 2 = 0)).map Query.disjunction)
      (((powerset cs).filter (fun l => l.length % 2 = 0)).map Query.disjunction)
      = (((powerset cs).filter (fun l => ¬ l.length % 2 = 0)).map Query.disjunction,
         ((powerset cs).filter (fun l => l.length % 2 = 0)).map Query.disjunction) := by
  apply cancel_loop_id
  apply cancel_once_none
  intro p hp m hm
  rcases List.mem_map.mp hp with ⟨l1, hl1, rfl⟩
  rcases List.mem_map.mp hm with ⟨l2, hl2, rfl⟩
  have h1 : ¬ l1.length % 2 = 0 := by
    have := (List.mem_filter.mp hl1).2
    simpa using this
  have h2 : l2.length % 2 = 0 := by
    have := (List.mem_filter.mp hl2).2
    simpa using this
  show Query.beq (Query.disjunction l1) (Query.disjunction l2) = false
  rw [Query.beq]
  by_contra hne
  have hb : Query.beqList l1 l2 = true := by
    cases hbb : Query.beqList l1 l2 with
    | false => exact absurd hbb hne
    | true => rfl
  have := beqList_length l1 l2 hb
  omega

/-- A left fold of multiplication over values in the unit interval stays
in the unit interval. -/
theorem foldl_mul_unit : ∀ (vs : List ℚ) (v : ℚ), 0 ≤ v → v ≤ 1 →
    (∀ x ∈ vs, 0 ≤ x ∧ x ≤ 1) →
    0 ≤ vs.foldl (· * ·) v ∧ vs.foldl (· * ·) v ≤ 1 := by
  intro vs
  induction vs with
  | nil => intro v h0 h1 _; exact ⟨h0, h1⟩
  | cons x r ih =>
    intro v h0 h1 hall
    rw [List.foldl_cons]
    have hx := hall x (by simp)
    refine ih (v * x) (mul_nonneg h0 hx.1) ?_ (fun y hy => hall y (by simp [hy]))
    calc v * x ≤ 1 * 1 := by
          exact mul_le_mul h1 hx.2 hx.1 (by norm_num)
    _ = 1 := by norm_num

/-- When all of a store's recorded probabilities lie in the unit
interval, so does every `get`. -/
theorem store_get_range (s : Store)
    (h : ∀ kv ∈ s.probabilities, 0 ≤ kv.2 ∧ kv.2 ≤ 1)
    (relation : String) (tuple_ : List String) :
    0 ≤ s.get relation tuple_ ∧ s.get relation tuple_ ≤ 1 := by
  rw [Store.get]
  cases hf : s.probabilities.find? (fun kv => decide (kv.1 = (relation, tuple_))) with
  | none => norm_num
  | some kv => exact h kv (List.mem_of_find?_eq_some hf)

/-- Range invariant of the evaluator: whenever it succeeds against a store
whose recorded probabilities lie in the unit interval, the result lies in
the unit interval. -/
theorem evaluate_query_range : ∀ (fuel : Nat) (q : Query) (s : Store),
    (∀ kv ∈ s.probabilities, 0 ≤ kv.2 ∧ kv.2 ≤ 1) →
    ∀ p, evaluate_query fuel q s = .ok p → 0 ≤ p ∧ p ≤ 1 := by
  intro fuel
  induction fuel with
  | zero =>
    intro q s hs p hp
    rw [evaluate_query] at hp
    cases hp
  | succ n ih =>
    intro q s hs p hp
    rw [evaluate_query] at hp
    cases hrq : remove_quantifiers q with
    | error e => rw [hrq] at hp; simp at hp
    | ok q' =>
      rw [hrq] at hp
      cases q' with
      | negation inner => simp at hp
      | existentialQuantifier v inner => simp at hp
      | universalQuantifier v inner => simp at hp
      | atom a =>
        simp only [] at hp
        cases hg : ground_tuple a.tuple_ with
        | error e => rw [hg] at hp; simp at hp
        | ok t =>
          rw [hg] at hp
          try simp only [] at hp
          simp only [Except.ok.injEq] at hp
          subst hp
          exact store_get_range s hs a.relation t
      | conjunction cs =>
        simp only [] at hp
        cases hdec : decompose cs with
        | error e => rw [hdec] at hp; simp at hp
        | ok decomposed =>
          rw [hdec] at hp
          try simp only [] at hp
          by_cases hlen : decomposed.length > 1
          · rw [if_pos hlen] at hp
            cases hvl : evaluate_list n (decomposed.map wrap_conjunction) s with
            | error e => rw [hvl] at hp; simp at hp
            | ok vals =>
              rw [hvl] at hp
              try simp only [] at hp
              cases vals with
              | nil => rw [reduce_mul] at hp; simp at hp
              | cons v vs =>
                rw [reduce_mul] at hp
                simp only [Except.ok.injEq] at hp
                subst hp
                have hmem := evaluate_list_mem n s _ _ hvl
                refine foldl_mul_unit vs v ?_ ?_ ?_
                · exact (by
                    rcases hmem v (by simp) with ⟨q0, _, hq0⟩
                    exact (ih q0 s hs v hq0).1)
                · exact (by
                    rcases hmem v (by simp) with ⟨q0, _, hq0⟩
                    exact (ih q0 s hs v hq0).2)
                · intro x hx
                  rcases hmem x (by simp [hx]) with ⟨q0, _, hq0⟩
                  exact ih q0 s hs x hq0
          · rw [if_neg hlen] at hp
            try simp only [] at hp
            rw [cancel_loop_powerset] at hp
            cases hplus : evaluate_list n
                (((powerset cs).filter (fun l => ¬ l.length % 2 = 0)).map Query.disjunction) s with
            | error e => rw [hplus] at hp; simp at hp
            | ok pv =>
              rw [hplus] at hp
              try simp only [] at hp
              obtain ⟨t, ht⟩ := minus_head cs
              cases hminus : evaluate_list n
                  (((powerset cs).filter (fun l => l.length % 2 = 0)).map Query.disjunction) s with
              | error e => rw [hminus] at hp; simp at hp
              | ok mv =>
                exfalso
                rw [ht, evaluate_list] at hminus
                cases hnil : evaluate_query n (.disjunction []) s with
                | error e => rw [hnil] at hminus; cases hminus
                | ok v => exact evaluate_disjunction_nil n s v hnil
      | disjunction cs =>
        simp only [] at hp
        cases hpush : push_disjunction cs with
        | error e => rw [hpush] at hp; simp at hp
        | ok q2 =>
          rw [hpush] at hp
          try simp only [] at hp
          cases q2 with
          | atom a => simp at hp
          | negation inner => simp at hp
          | existentialQuantifier v inner => simp at hp
          | universalQuantifier v inner => simp at hp
          | conjunction cs2 =>
            simp only [] at hp
            cases hdec : decompose cs2 with
            | error e => rw [hdec] at hp; simp at hp
            | ok decomposed =>
              rw [hdec] at hp
              try simp only [] at hp
              by_cases hlen : decomposed.length > 1
              · rw [if_pos hlen] at hp
                cases hvl : evaluate_list n (decomposed.map wrap_conjunction) s with
                | error e => rw [hvl] at hp; simp at hp
                | ok vals =>
                  rw [hvl] at hp
                  try simp only [] at hp
                  cases vals with
                  | nil => rw [reduce_mul] at hp; simp at hp
                  | cons v vs =>
                    rw [reduce_mul] at hp
                    simp only [Except.ok.injEq] at hp
                    subst hp
                    have hmem := evaluate_list_mem n s _ _ hvl
                    refine foldl_mul_unit vs v ?_ ?_ ?_
                    · exact (by
                        rcases hmem v (by simp) with ⟨q0, _, hq0⟩
                        exact (ih q0 s hs v hq0).1)
                    · exact (by
                        rcases hmem v (by simp) with ⟨q0, _, hq0⟩
                        exact (ih q0 s hs v hq0).2)
                    · intro x hx
                      rcases hmem x (by simp [hx]) with ⟨q0, _, hq0⟩
                      exact ih q0 s hs x hq0
              · rw [if_neg hlen] at hp
                try simp only [] at hp
                rw [cancel_loop_powerset] at hp
                cases hplus : evaluate_list n
                    (((powerset cs2).filter (fun l => ¬ l.length % 2 = 0)).map Query.disjunction) s with
                | error e => rw [hplus] at hp; simp at hp
                | ok pv =>
                  rw [hplus] at hp
                  try simp only [] at hp
                  obtain ⟨t, ht⟩ := minus_head cs2
                  cases hminus : evaluate_list n
                      (((powerset cs2).filter (fun l => l.length % 2 = 0)).map Query.disjunction) s with
                  | error e => rw [hminus] at hp; simp at hp
                  | ok mv =>
                    exfalso
                    rw [ht, evaluate_list] at hminus
                    cases hnil : evaluate_query n (.disjunction []) s with
                    | error e => rw [hnil] at hminus; cases hminus
                    | ok v => exact evaluate_disjunction_nil n s v hnil
          | disjunction cs2 =>
            simp only [] at hp
            cases hdec : decompose cs2 with
            | error e => rw [hdec] at hp; simp at hp
            | ok decomposed =>
              rw [hdec] at hp
              try simp only [] at hp
              by_cases hlen : decomposed.length > 1
              · rw [if_pos hlen] at hp
                cases hvl : evaluate_list n (decomposed.map wrap_disjunction) s with
                | error e => rw [hvl] at hp; simp at hp
                | ok vals =>
                  rw [hvl] at hp
                  try simp only [] at hp
                  cases hred : reduce_mul (vals.map (fun v => 1 - v)) with
                  | error e => rw [hred] at hp; simp at hp
                  | ok prod =>
                    rw [hred] at hp
                    try simp only [] at hp
                    simp only [Except.ok.injEq] at hp
                    subst hp
                    cases vals with
                    | nil => rw [List.map_nil, reduce_mul] at hred; cases hred
                    | cons v vs =>
                      rw [List.map_cons, reduce_mul] at hred
                      simp only [Except.ok.injEq] at hred
                      subst hred
                      have hmem := evaluate_list_mem n s _ _ hvl
                      have hv : 0 ≤ v ∧ v ≤ 1 := by
                        rcases hmem v (by simp) with ⟨q0, _, hq0⟩
                        exact ih q0 s hs v hq0
                      have hprod := foldl_mul_unit (vs.map (fun v => 1 - v)) (1 - v)
                        (by linarith [hv.2]) (by linarith [hv.1]) (by
                          intro x hx
                          rcases List.mem_map.mp hx with ⟨w, hw, rfl⟩
                          rcases hmem w (by simp [hw]) with ⟨q0, _, hq0⟩
                          have := ih q0 s hs w hq0
                          constructor <;> linarith [this.1, this.2])
                      constructor <;> linarith [hprod.1, hprod.2]
              · rw [if_neg hlen] at hp
                cases hgv : get_variables (.disjunction cs2) with
                | error e => rw [hgv] at hp; simp at hp
                | ok vars =>
                  rw [hgv] at hp
                  try simp only [] at hp
                  cases hfs : find_separator vars (.disjunction cs2) with
                  | error e => rw [hfs] at hp; simp at hp
                  | ok sep =>
                    rw [hfs] at hp
                    try simp only [] at hp
                    cases sep with
                    | none => simp at hp
                    | some v =>
                      simp only [] at hp
                      cases hfo : find_occurrences (.disjunction cs2) v with
                      | error e => rw [hfo] at hp; simp at hp
                      | ok occ =>
                        rw [hfo] at hp
                        try simp only [] at hp
                        simp [ite_self] at hp

/-- After substituting the variable once, a term contains no occurrence of
it, so a second substitution (with any constant) is the identity. -/
theorem replace_if_match_idem (variable_ c c' : String) (t : Term) :
    replace_if_match variable_ c' (replace_if_match variable_ c t)
      = replace_if_match variable_ c t := by
  cases t with
  | var n =>
    by_cases h : n = variable_ <;> simp [replace_if_match, h]
  | const s => simp [replace_if_match]

/-- C1: the separator-variable scenario.  Populating the store as the
claim describes succeeds, but evaluating `exist(x, R(x))` raises
AssertionError for every fuel instead of returning `0.875`:
`evaluate_query` first strips the quantifier (evaluate.py:169) and then
reaches the ground-atom branch, whose `assert isinstance(item, str)`
(evaluate.py:174) fails on the variable `x` before the separator-variable
logic (evaluate.py:224-241) can run. -/
theorem c1_exist_separator_crashes :
    (Except.bind (Store.add ⟨[], []⟩ "R" ["a"] (1/2)) (fun s1 =>
      Except.bind (s1.add "R" ["b"] (1/2)) (fun s2 => s2.add "R" ["c"] (1/2)))
      = .ok store_rrr)
    ∧ (∀ fuel, evaluate_query (fuel + 1)
        (.existentialQuantifier "x" (.atom ⟨"R", [.var "x"]⟩)) store_rrr
        = .error .assertionError)
    ∧ (∀ fuel, evaluate_query fuel
        (.existentialQuantifier "x" (.atom ⟨"R", [.var "x"]⟩)) store_rrr
        ≠ .ok (7/8)) := by
  refine ⟨?_, ?_, ?_⟩
  · simp [Store.add, set_assoc, store_rrr, List.lookup, Except.bind]
  · intro fuel
    simp [evaluate_query, remove_quantifiers, ground_tuple]
  · intro fuel
    cases fuel with
    | zero => simp [evaluate_query]
    | succ n => simp [evaluate_query, remove_quantifiers, ground_tuple]

/-- C2: the non-hierarchical query `exist(x, exist(y, and(R(x),
and(S(x,y), T(y)))))` fails on every store — but with AttributeError, not
with the Intractable `EvaluationError`: `remove_quantifiers`
(evaluate.py:91) reads `query.children` on the first conjunction, and
query.py's binary `Conjunction` has no such attribute, so the program
crashes before any evaluation rule (in particular the intractability
check, evaluate.py:232-233) can run. -/
theorem c2_intractable_query_crashes :
    (∀ fuel (s : Store), py_evaluate_query (fuel + 1)
      (.existentialQuantifier "x" (.existentialQuantifier "y"
        (.conjunction (.atom ⟨"R", [.var "x"]⟩)
          (.conjunction (.atom ⟨"S", [.var "x", .var "y"]⟩) (.atom ⟨"T", [.var "y"]⟩)))))
      s = .error .attributeError)
    ∧ Err.attributeError ≠ Err.evaluationError := by
  refine ⟨?_, by decide⟩
  intro fuel s
  simp [py_evaluate_query, py_remove_quantifiers]

/-- C3 counterexample: on the empty store the query `R(a)` evaluates
successfully (to `0.0`), but `not(R(a))` raises AssertionError — so
evaluating `not(Q)` does not succeed whenever evaluating `Q` succeeds,
and no complement identity holds. -/
theorem c3_negation_counterexample :
    evaluate_query 1 (.atom ⟨"R", [.const "a"]⟩) ⟨[], []⟩ = .ok 0
    ∧ evaluate_query 1 (.negation (.atom ⟨"R", [.const "a"]⟩)) ⟨[], []⟩
        = .error .assertionError := by
  constructor
  · simp [evaluate_query, remove_quantifiers, ground_tuple, Store.get]
  · simp [evaluate_query, remove_quantifiers]

/-- C3 amended: the evaluator does not support negation at all —
`remove_quantifiers` (evaluate.py:85-96) has no `Negation` case and hits
`assert False`, so evaluating `not(Q)` raises AssertionError for every
inner query, store and fuel. -/
theorem c3_negation_always_fails :
    ∀ fuel (q : Query) (s : Store),
      evaluate_query (fuel + 1) (.negation q) s = .error .assertionError := by
  intro fuel q s
  simp [evaluate_query, remove_quantifiers]

/-- C5: `Variable` and `Atom` (query.py lines 4-22) define no `__eq__`
and no `__hash__`, so `==` compares by object identity: two separately
constructed variables with the same name are not equal (and hash
differently), and likewise two separately constructed atoms with the same
relation and the same term tuple. -/
theorem c5_identity_equality :
    pyVariableEq ⟨0, "x"⟩ ⟨1, "x"⟩ = false
    ∧ (PyVariable.mk 0 "x").name = (PyVariable.mk 1 "x").name
    ∧ pyVariableHash ⟨0, "x"⟩ ≠ pyVariableHash ⟨1, "x"⟩
    ∧ pyAtomEq ⟨0, "R", [.inr "a"]⟩ ⟨1, "R", [.inr "a"]⟩ = false
    ∧ (PyAtom.mk 0 "R" [.inr "a"]).relation = (PyAtom.mk 1 "R" [.inr "a"]).relation
    ∧ (PyAtom.mk 0 "R" [.inr "a"]).tuple_ = (PyAtom.mk 1 "R" [.inr "a"]).tuple_
    ∧ pyAtomHash ⟨0, "R", [.inr "a"]⟩ ≠ pyAtomHash ⟨1, "R", [.inr "a"]⟩ := by
  refine ⟨rfl, rfl, by decide, rfl, rfl, rfl, by decide⟩

/-- C4: the staged program cannot evaluate a conjunction or a
disjunction at all: query.py (lines 35-54) defines binary
`Conjunction(left, right)` / `Disjunction(left, right)` with no
`children` attribute, so `remove_quantifiers` (evaluate.py:91-93) raises
AttributeError on the first connective.  `and(R(a), S(b))` and
`or(R(a), S(b))` therefore never return `0.20` / `0.70` — they return no
value at all, on any store and at any fuel. -/
theorem c4_binary_connectives_crash :
    (∀ fuel (s : Store), py_evaluate_query (fuel + 1)
      (.conjunction (.atom ⟨"R", [.const "a"]⟩) (.atom ⟨"S", [.const "b"]⟩)) s
      = .error .attributeError)
    ∧ (∀ fuel (s : Store), py_evaluate_query (fuel + 1)
      (.disjunction (.atom ⟨"R", [.const "a"]⟩) (.atom ⟨"S", [.const "b"]⟩)) s
      = .error .attributeError)
    ∧ (∀ fuel (s : Store) (p : ℚ), py_evaluate_query fuel
        (.conjunction (.atom ⟨"R", [.const "a"]⟩) (.atom ⟨"S", [.const "b"]⟩)) s ≠ .ok p)
    ∧ (∀ fuel (s : Store) (p : ℚ), py_evaluate_query fuel
        (.disjunction (.atom ⟨"R", [.const "a"]⟩) (.atom ⟨"S", [.const "b"]⟩)) s ≠ .ok p) := by
  refine ⟨?_, ?_, ?_, ?_⟩
  · intro fuel s
    simp [py_evaluate_query, py_remove_quantifiers]
  · intro fuel s
    simp [py_evaluate_query, py_remove_quantifiers]
  · intro fuel s p
    cases fuel with
    | zero => simp [py_evaluate_query]
    | succ n => simp [py_evaluate_query, py_remove_quantifiers]
  · intro fuel s p
    cases fuel with
    | zero => simp [py_evaluate_query]
    | succ n => simp [py_evaluate_query, py_remove_quantifiers]

/-- C6: whenever the evaluator succeeds against a store whose recorded
probabilities lie in `[0, 1]`, the returned probability lies in
`[0, 1]`. -/
theorem c6_eval_range : ∀ (fuel : Nat) (q : Query) (s : Store),
    (∀ kv ∈ s.probabilities, 0 ≤ kv.2 ∧ kv.2 ≤ 1) →
    ∀ p, evaluate_query fuel q s = .ok p → 0 ≤ p ∧ p ≤ 1 :=
  evaluate_query_range

/-- C6 witness: the range invariant applied to the scenario-1 store and
the ground query `R(a)`. -/
theorem c6_eval_range_witness : (0 : ℚ) ≤ 2/5 ∧ (2/5 : ℚ) ≤ 1 :=
  c6_eval_range 1 (.atom ⟨"R", [.const "a"]⟩) store_single
    (by intro kv hkv; simp [store_single] at hkv; subst hkv; norm_num) (2/5)
    (by simp [evaluate_query, remove_quantifiers, ground_tuple, Store.get, store_single])

/-- C7: `Store.get` returns `0.0` for every key not present in the
probability table, and on the store populated by `add("R", ("a",), 0.4)`
the query `R(a)` evaluates to `0.4` while `R(b)` evaluates to `0.0`. -/
theorem c7_missing_entries_zero :
    (∀ (s : Store) (relation : String) (tuple_ : List String),
      s.probabilities.find? (fun kv => decide (kv.1 = (relation, tuple_))) = none →
      s.get relation tuple_ = 0)
    ∧ Store.add ⟨[], []⟩ "R" ["a"] (2/5) = .ok store_single
    ∧ evaluate_query 1 (.atom ⟨"R", [.const "a"]⟩) store_single = .ok (2/5)
    ∧ evaluate_query 1 (.atom ⟨"R", [.const "b"]⟩) store_single = .ok 0 := by
  refine ⟨?_, ?_, ?_, ?_⟩
  · intro s relation tuple_ h
    rw [Store.get, h]
  · simp [Store.add, set_assoc, store_single, List.lookup]
  · simp [evaluate_query, remove_quantifiers, ground_tuple, Store.get, store_single]
  · simp [evaluate_query, remove_quantifiers, ground_tuple, Store.get, store_single]

/-- C7 witness: `get` on the missing key `("R", ("b",))` of the
scenario-1 store. -/
theorem c7_missing_entries_zero_witness : store_single.get "R" ["b"] = 0 :=
  c7_missing_entries_zero.1 store_single "R" ["b"] (by simp [store_single, List.find?])

/-- `List.lookup` finds a key appended to a list in which it does not
occur. -/
theorem lookup_append_none {l : List (String × Nat)} {k : String} {v : Nat}
    (h : l.lookup k = none) : (l ++ [(k, v)]).lookup k = some v := by
  induction l with
  | nil => simp [List.lookup]
  | cons a rest ih =>
    rw [List.cons_append, List.lookup]
    rw [List.lookup] at h
    cases hk : (k == a.1) with
    | true => rw [hk] at h; cases h
    | false =>
      rw [hk] at h
      exact ih h

/-- C8: `Store.add` fails exactly when the relation already has a
recorded arity different from the tuple's length (and the functional
model returns no store then, leaving the original store untouched); a
successful `add` for a new relation records the tuple's length as the
relation's arity. -/
theorem c8_add_arity_check :
    ∀ (s : Store) (relation : String) (tuple_ : List String) (p : ℚ),
      ((∃ e, Store.add s relation tuple_ p = .error e)
        ↔ (∃ n, s.arities.lookup relation = some n ∧ n ≠ tuple_.length))
      ∧ (s.arities.lookup relation = none →
          Store.add s relation tuple_ p
            = .ok ⟨set_assoc s.probabilities (relation, tuple_) p,
                   s.arities ++ [(relation, tuple_.length)]⟩
          ∧ (s.arities ++ [(relation, tuple_.length)]).lookup relation
              = some tuple_.length) := by
  intro s relation tuple_ p
  constructor
  · constructor
    · rintro ⟨e, he⟩
      rw [Store.add] at he
      cases hl : s.arities.lookup relation with
      | none => rw [hl] at he; cases he
      | some n =>
        rw [hl] at he
        simp only [] at he
        by_cases hn : n ≠ tuple_.length
        · exact ⟨n, rfl, hn⟩
        · rw [if_neg hn] at he; cases he
    · rintro ⟨n, hn, hne⟩
      rw [Store.add, hn]
      simp only []
      rw [if_pos hne]
      exact ⟨.valueError, rfl⟩
  · intro hl
    constructor
    · rw [Store.add, hl]
    · exact lookup_append_none hl

/-- C8 witness: adding a relation unseen before records its arity. -/
theorem c8_add_arity_check_witness :
    Store.add ⟨[], []⟩ "R" ["a", "b"] (1/2)
      = .ok ⟨set_assoc [] ("R", ["a", "b"]) (1/2), [] ++ [("R", 2)]⟩
    ∧ ([] ++ [("R", 2)] : List (String × Nat)).lookup "R" = some 2 :=
  (c8_add_arity_check ⟨[], []⟩ "R" ["a", "b"] (1/2)).2 (by simp [List.lookup])

/-- C9 counterexample: on a conjunction the first rewrite already has no
value — `rewrite` (evaluate.py:77) iterates `query.children`, which
query.py's binary `Conjunction` does not have, raising AttributeError —
so at `Q = and(R(x), S(x))` the claimed equation
`rewrite(rewrite(Q, v, c), v, c') = rewrite(Q, v, c)` compares no
queries: the claim fails on the conjunction/disjunction part of its
quantified fragment. -/
theorem c9_rewrite_connective_counterexample :
    py_rewrite (.conjunction (.atom ⟨"R", [.var "x"]⟩) (.atom ⟨"S", [.var "x"]⟩)) "x" "c"
      = .error .attributeError
    ∧ ∀ q1 : PyQuery,
        py_rewrite (.conjunction (.atom ⟨"R", [.var "x"]⟩) (.atom ⟨"S", [.var "x"]⟩)) "x" "c"
          ≠ .ok q1 := by
  refine ⟨rfl, ?_⟩
  intro q1 h
  simp [py_rewrite] at h

/-- C9 amended: `rewrite` is idempotent on the queries it can process —
whenever `rewrite(Q, v, c)` returns a query `q1` (in the staged program
that happens exactly for atoms and for chains of existential quantifiers
over an atom; any conjunction or disjunction raises AttributeError), no
occurrence of `v` remains in `q1`, so `rewrite(q1, v, c')` returns `q1`
unchanged for every constant `c'`. -/
theorem c9_rewrite_idempotent :
    ∀ (q : PyQuery) (variable_ c c' : String) (q1 : PyQuery),
      py_rewrite q variable_ c = .ok q1 → py_rewrite q1 variable_ c' = .ok q1 := by
  intro q
  induction q with
  | atom a =>
    intro v c c' q1 h
    rw [py_rewrite] at h
    injection h with h
    subst h
    rw [py_rewrite]
    have hmap : List.map (replace_if_match v c')
        (List.map (replace_if_match v c) a.tuple_)
        = List.map (replace_if_match v c) a.tuple_ := by
      rw [List.map_map]
      exact List.map_congr_left (fun t _ => replace_if_match_idem v c c' t)
    rw [hmap]
  | negation inner ih =>
    intro v c c' q1 h
    simp [py_rewrite] at h
  | conjunction l r ihl ihr =>
    intro v c c' q1 h
    rw [py_rewrite] at h
    cases h
  | disjunction l r ihl ihr =>
    intro v c c' q1 h
    rw [py_rewrite] at h
    cases h
  | existentialQuantifier bv inner ih =>
    intro v c c' q1 h
    rw [py_rewrite] at h
    cases h1 : py_rewrite inner v c with
    | error e => rw [h1] at h; cases h
    | ok inner' =>
      rw [h1] at h
      injection h with h
      subst h
      rw [py_rewrite, ih v c c' inner' h1]
  | universalQuantifier bv inner ih =>
    intro v c c' q1 h
    simp [py_rewrite] at h

/-- C9 witness: idempotence at `exist(y, R(x, y))`, a query the staged
program's `rewrite` does process. -/
theorem c9_rewrite_idempotent_witness :
    py_rewrite (.existentialQuantifier "y" (.atom ⟨"R", [.const "c", .var "y"]⟩)) "x" "d"
      = .ok (.existentialQuantifier "y" (.atom ⟨"R", [.const "c", .var "y"]⟩)) :=
  c9_rewrite_idempotent
    (.existentialQuantifier "y" (.atom ⟨"R", [.var "x", .var "y"]⟩)) "x" "c" "d" _
    (by simp [py_rewrite, replace_if_match])

/-- Positionwise absence of constant conflicts makes the zipped
unifiability scan succeed (the zip truncates to the shorter tuple). -/
theorem zip_all_no_conflict : ∀ (t1 t2 : List Term),
    (∀ (i : Nat) (s1 s2 : String), t1[i]? = some (Term.const s1) → t2[i]? = some (Term.const s2) → s1 = s2) →
    ((t1.zip t2).all (fun p =>
      match p with
      | (.const s1, .const s2) => s1 = s2
      | _ => true)) = true := by
  intro t1
  induction t1 with
  | nil => intro t2 _; simp
  | cons x r ih =>
    intro t2 h
    cases t2 with
    | nil => simp
    | cons y r2 =>
      rw [List.zip_cons_cons, List.all_cons, Bool.and_eq_true]
      constructor
      · cases x with
        | var n => rfl
        | const s1 =>
          cases y with
          | var n => rfl
          | const s2 => simpa using h 0 s1 s2 (by simp) (by simp)
      · exact ih r2 (fun i s1 s2 h1 h2 => h (i + 1) s1 s2 (by simpa using h1) (by simpa using h2))

/-- C10: `is_unifiable` compares two atoms of the same relation only over
the positions of the shorter tuple (`zip` truncates), so same-relation
atoms of different arities with no conflicting constants on the common
prefix are unifiable — e.g. `R(a)` and `R(a,b)` — and queries containing
such a pair are reported as not independent. -/
theorem c10_unifiable_prefix :
    (∀ (r : String) (t1 t2 : List Term),
      (∀ (i : Nat) (s1 s2 : String), t1[i]? = some (Term.const s1) → t2[i]? = some (Term.const s2) → s1 = s2) →
      is_unifiable ⟨r, t1⟩ ⟨r, t2⟩ = true)
    ∧ is_unifiable ⟨"R", [.const "a"]⟩ ⟨"R", [.const "a", .const "b"]⟩ = true
    ∧ (∀ (q1 q2 : Query) (l1 l2 : List Atom) (a1 a2 : Atom),
      get_atoms q1 = .ok l1 → get_atoms q2 = .ok l2 → a1 ∈ l1 → a2 ∈ l2 →
      is_unifiable a1 a2 = true → is_independent q1 q2 = .ok false) := by
  refine ⟨?_, by decide, ?_⟩
  · intro r t1 t2 h
    rw [is_unifiable]
    simp only [ne_eq, not_true_eq_false, if_false, ite_false, Bool.false_eq_true]
    exact zip_all_no_conflict t1 t2 h
  · intro q1 q2 l1 l2 a1 a2 hga1 hga2 ha1 ha2 hu
    rw [is_independent, hga1, hga2]
    simp only []
    cases hall : l1.all (fun x => l2.all (fun y => !(is_unifiable x y))) with
    | false => rfl
    | true =>
      exfalso
      have h1 := List.all_eq_true.mp hall a1 ha1
      have h2 := List.all_eq_true.mp h1 a2 ha2
      rw [hu] at h2
      cases h2

/-- C10 witness: `R(a)` and `R(a,b)` unify, so the queries consisting of
those single atoms are dependent. -/
theorem c10_unifiable_prefix_witness :
    is_independent (.atom ⟨"R", [.const "a"]⟩)
      (.atom ⟨"R", [.const "a", .const "b"]⟩) = .ok false :=
  c10_unifiable_prefix.2.2 _ _ [⟨"R", [.const "a"]⟩] [⟨"R", [.const "a", .const "b"]⟩]
    ⟨"R", [.const "a"]⟩ ⟨"R", [.const "a", .const "b"]⟩
    (by rw [get_atoms]) (by rw [get_atoms]) (by simp) (by simp) (by decide)
